import Mathlib

/-!
Shallow embedding of gunicorn's `config.py` (settings registry, validators,
Config object, CLI parser builder) and proofs about it.

Python strings are modelled as `List Char`; Python's dynamically typed values
as the inductive `Val`; exceptions as `Except Err`.
-/

deriving instance DecidableEq for Except

namespace Gunicorn

/-- The Python exceptions raised by the code under study.
`configError` carries the offending user/group name
(`ConfigError("No such user: '%s'" % val)`). -/
inductive Err
  | attributeError (msg : String)
  | valueError
  | typeError
  | configError (name : List Char)
  | indexError
  | keyError
deriving DecidableEq, Repr

/-- Python runtime values that flow through the configuration system.
Functions are modelled by their declared parameter count (`callable`),
which is all `validate_callable` inspects. -/
inductive Val
  | none
  | bool (b : Bool)
  | int (n : Int)
  | str (s : List Char)
  | callable (arity : Nat)
deriving DecidableEq, Repr

/-- Characters stripped by Python 2's `str.strip()` (string.whitespace). -/
def pyIsSpace (c : Char) : Bool :=
  c == ' ' || c == '\t' || c == '\n' || c == '\r' || c == '\x0b' || c == '\x0c'

/-- Characters matched by `textwrap`'s indentation regexes `[ \t]`. -/
def isIndentChar (c : Char) : Bool :=
  c == ' ' || c == '\t'

/-- Python `str.strip()`: drop leading and trailing whitespace. -/
def pyStrip (s : List Char) : List Char :=
  ((s.dropWhile pyIsSpace).reverse.dropWhile pyIsSpace).reverse

/-- Python `text.split('\n')` as used by `textwrap.dedent`. -/
def splitNl : List Char → List (List Char)
  | [] => [[]]
  | c :: rest =>
    if c = '\n' then [] :: splitNl rest
    else
      match splitNl rest with
      | [] => [[c]]
      | l :: ls => (c :: l) :: ls

/-- Rejoin what `splitNl` produced: `'\n'.join(lines)`. -/
def joinNl : List (List Char) → List Char
  | [] => []
  | [l] => l
  | l :: ls => l ++ '\n' :: joinNl ls

/-- `_whitespace_only_re.sub('', text)`: a line consisting solely of one or
more space/tab characters is replaced by the empty line. -/
def blankWsLines (ls : List (List Char)) : List (List Char) :=
  ls.map (fun l => if !l.isEmpty && l.all isIndentChar then [] else l)

/-- One match of `_leading_whitespace_re` (`(^[ \t]*)(?:[^ \t\n])`): if the
line contains a character other than space/tab, its leading space/tab run. -/
def lineIndent (l : List Char) : Option (List Char) :=
  if l.all isIndentChar then Option.none else some (l.takeWhile isIndentChar)

/-- The margin-combining loop body of `textwrap.dedent`. -/
def chooseMargin (m : Option (List Char)) (ind : List Char) : Option (List Char) :=
  match m with
  | Option.none => some ind
  | some mg =>
    if mg.isPrefixOf ind then some mg
    else if ind.isPrefixOf mg then some ind
    else some []

/-- Fold `chooseMargin` over the indents of all content lines. -/
def computeMargin (ls : List (List Char)) : Option (List Char) :=
  ls.foldl (fun m l =>
    match lineIndent l with
    | Option.none => m
    | some ind => chooseMargin m ind) Option.none

/-- `re.sub(r'(?m)^' + margin, '', text)` acting on one line. -/
def stripMargin (margin l : List Char) : List Char :=
  if margin.isPrefixOf l then l.drop margin.length else l

/-- Python 2 `textwrap.dedent`: empty all whitespace-only lines, compute the
common space/tab margin of the content lines, and remove it. -/
def dedent (s : List Char) : List Char :=
  let ls := blankWsLines (splitNl s)
  let m := (computeMargin ls).getD []
  joinNl (if m.isEmpty then ls else ls.map (stripMargin m))

/-- Python 2 `str.splitlines()`: split at `\n`, `\r` and `\r\n`; no trailing
empty line for a trailing terminator; the empty string yields `[]`. -/
def pySplitlinesAux : List Char → List Char → List (List Char)
  | [], acc => [acc.reverse]
  | '\r' :: '\n' :: rest, acc =>
    acc.reverse :: (if rest.isEmpty then [] else pySplitlinesAux rest [])
  | '\r' :: rest, acc =>
    acc.reverse :: (if rest.isEmpty then [] else pySplitlinesAux rest [])
  | '\n' :: rest, acc =>
    acc.reverse :: (if rest.isEmpty then [] else pySplitlinesAux rest [])
  | c :: rest, acc => pySplitlinesAux rest (c :: acc)

def pySplitlines (s : List Char) : List (List Char) :=
  if s.isEmpty then [] else pySplitlinesAux s []

/-- `SettingMeta.fmt_desc`: dedent and strip the declared documentation;
`desc.splitlines()[0]` raises `IndexError` when the result has no lines.
Returns `(longDoc, shortDoc)`. -/
def fmt_desc (desc : List Char) : Except Err (List Char × List Char) :=
  let d := pyStrip (dedent desc)
  match pySplitlines d with
  | [] => .error .indexError
  | line0 :: _ => .ok (d, line0)

/-- Did an `Except` computation succeed? -/
def isOkE : Except Err α → Bool
  | .ok _ => true
  | .error _ => false

/-! ## Validator library -/

/-- ASCII binary digit. -/
def isBinDigit (c : Char) : Bool := c == '0' || c == '1'

/-- ASCII octal digit (`'0'.toNat = 48`, `'7'.toNat = 55`). -/
def isOctDigit (c : Char) : Bool := c.isDigit && decide (c.toNat ≤ 55)

/-- ASCII hexadecimal digit. -/
def isHexDigitB (c : Char) : Bool :=
  c.isDigit || decide (97 ≤ c.toNat ∧ c.toNat ≤ 102) || decide (65 ≤ c.toNat ∧ c.toNat ≤ 70)

/-- Numeric value of a digit character (0-9, a-f, A-F). -/
def digitVal (c : Char) : Nat :=
  if c.isDigit then c.toNat - 48
  else if decide (97 ≤ c.toNat) then c.toNat - 87
  else c.toNat - 55

/-- Value of a digit string in the given base (most significant first). -/
def digitsToNat (base : Nat) (ds : List Char) : Nat :=
  ds.foldl (fun a c => a * base + digitVal c) 0

/-- A run of digits for one base: nonempty and all valid, else `ValueError`. -/
def parseDigits (base : Nat) (good : Char → Bool) (ds : List Char) : Except Err Nat :=
  if ds.isEmpty || !(ds.all good) then .error .valueError else .ok (digitsToNat base ds)

/-- Python 2 `int(s, 0)`: strip whitespace, optional sign, then auto base:
`0x`/`0X` hexadecimal, `0o`/`0O` octal, `0b`/`0B` binary, a remaining
leading `0` legacy octal, otherwise decimal. -/
def pyIntBase0 (s : List Char) : Except Err Int := do
  let t := pyStrip s
  let (sign, body) : Int × List Char :=
    match t with
    | '-' :: r => (-1, r)
    | '+' :: r => (1, r)
    | r => (1, r)
  let mag ←
    match body with
    | '0' :: 'x' :: ds => parseDigits 16 isHexDigitB ds
    | '0' :: 'X' :: ds => parseDigits 16 isHexDigitB ds
    | '0' :: 'o' :: ds => parseDigits 8 isOctDigit ds
    | '0' :: 'O' :: ds => parseDigits 8 isOctDigit ds
    | '0' :: 'b' :: ds => parseDigits 2 isBinDigit ds
    | '0' :: 'B' :: ds => parseDigits 2 isBinDigit ds
    | '0' :: ds => parseDigits 8 isOctDigit ('0' :: ds)
    | ds => parseDigits 10 Char.isDigit ds
  .ok (sign * (mag : Int))

/-- `validate_bool`: booleans pass through; other non-strings are a
`TypeError`; a string is lowercased, stripped and compared with
"true"/"false". -/
def validate_bool (val : Val) : Except Err Val :=
  match val with
  | .bool b => .ok (.bool b)
  | .str s =>
    let t := pyStrip (s.map Char.toLower)
    if t = "true".toList then .ok (.bool true)
    else if t = "false".toList then .ok (.bool false)
    else .error .valueError
  | _ => .error .typeError

/-- `validate_pos_int`: non-ints are parsed with `int(val, 0)` (a
`TypeError` unless a string); ints — including booleans, per the source
comment "Booleans are ints!" — keep their value; negatives are rejected. -/
def validate_pos_int (val : Val) : Except Err Val := do
  let n : Int ←
    match val with
    | .int n => .ok n
    | .bool b => .ok (if b then (1 : Int) else 0)
    | .str s => pyIntBase0 s
    | _ => .error .typeError
  if n < 0 then .error .valueError else .ok (.int n)

/-- `validate_string`: `None` passes through, other non-strings are a
`TypeError`, strings are stripped. -/
def validate_string : Val → Except Err Val
  | .none => .ok .none
  | .str s => .ok (.str (pyStrip s))
  | _ => .error .typeError

/-- `validate_callable(arity)`: callables are modelled by their declared
parameter count; non-callables and arity mismatches are a `TypeError`. -/
def validate_callable (arity : Nat) : Val → Except Err Val
  | .callable a => if a = arity then .ok (.callable a) else .error .typeError
  | _ => .error .typeError

/-- Python 2 `str.isdigit()`: nonempty and all ASCII digits. -/
def pyIsdigit (s : List Char) : Bool := !s.isEmpty && s.all Char.isDigit

/-- `validate_user`: `None` resolves to `os.geteuid()`. Any other value
first evaluates `val.isdigit()` — which raises `AttributeError` when `val`
is not a string (ints have no `isdigit` method), so the subsequent
`isinstance(val, int)` test is unreachable for ints. Digit strings become
ids; other strings go through `pwd.getpwnam`, a missing entry raising
`ConfigError("No such user: ...")`. -/
def validate_user (geteuid : Int) (getpwnam : List Char → Option Int) :
    Val → Except Err Val
  | .none => .ok (.int geteuid)
  | .str s =>
    if pyIsdigit s then .ok (.int (digitsToNat 10 s : Nat))
    else
      match getpwnam s with
      | some uid => .ok (.int uid)
      | Option.none => .error (.configError s)
  | _ => .error (.attributeError "isdigit")

/-- `validate_group`: symmetric to `validate_user` with
`os.getegid()` and `grp.getgrnam`. -/
def validate_group (getegid : Int) (getgrnam : List Char → Option Int) :
    Val → Except Err Val
  | .none => .ok (.int getegid)
  | .str s =>
    if pyIsdigit s then .ok (.int (digitsToNat 10 s : Nat))
    else
      match getgrnam s with
      | some gid => .ok (.int gid)
      | Option.none => .error (.configError s)
  | _ => .error (.attributeError "isdigit")

/-! ## Registry and setting descriptors -/

/-- The external process/system capabilities the validators consume. -/
structure Externals where
  geteuid : Int
  getegid : Int
  getpwnam : List Char → Option Int
  getgrnam : List Char → Option Int

/-- Which validator a setting class declares (a function reference in the
source). -/
inductive ValidatorTag
  | vbool
  | vposInt
  | vstring
  | vcallable (arity : Nat)
  | vuser
  | vgroup
deriving DecidableEq, Repr

/-- Dispatch a validator tag to its function. -/
def runValidator (ext : Externals) : ValidatorTag → Val → Except Err Val
  | .vbool, v => validate_bool v
  | .vposInt, v => validate_pos_int v
  | .vstring, v => validate_string v
  | .vcallable a, v => validate_callable a v
  | .vuser, v => validate_user ext.geteuid ext.getpwnam v
  | .vgroup, v => validate_group ext.getegid ext.getgrnam v

/-- The class-body attributes of one `Setting` subclass as written in the
source. `sect` models the attribute `section` (a reserved word in Lean);
an absent `cli` (`None`) is modelled as `[]`. -/
structure RawSetting where
  name : String
  sect : String
  cli : List String
  meta : Option String
  validator : ValidatorTag
  type : Option String
  action : Option String
  default : Val
  desc : String
deriving DecidableEq, Repr

/-- A registered setting class: the raw attributes plus what
`SettingMeta.__new__` adds (`order`) and `fmt_desc` rewrites
(`desc` dedented and stripped, `short` its first line). -/
structure SettingClass where
  name : String
  sect : String
  cli : List String
  meta : Option String
  validator : ValidatorTag
  type : Option String
  action : Option String
  default : Val
  desc : List Char
  short : List Char
  order : Nat
deriving DecidableEq, Repr

/-- The class `SettingMeta.__new__` builds from the class-body attributes
`r`, the normalized documentation `(d, s)` and the registry size `o`. -/
def mkRegistered (r : RawSetting) (d s : List Char) (o : Nat) : SettingClass :=
  { name := r.name, sect := r.sect, cli := r.cli, meta := r.meta,
    validator := r.validator, type := r.type, action := r.action,
    default := r.default, desc := d, short := s, order := o }

/-- `SettingMeta.__new__` for a `Setting` subclass: assign
`order = len(KNOWN_SETTINGS)`, normalize the documentation (which can
raise `IndexError`), and append the class to the registry. The source
performs no duplicate-name check. -/
def register (ks : List SettingClass) (r : RawSetting) :
    Except Err (List SettingClass) := do
  let (d, s) ← fmt_desc r.desc.toList
  .ok (ks ++ [mkRegistered r d s ks.length])

/-- Module import: process the `Setting` subclasses in declaration order,
starting from the empty `KNOWN_SETTINGS`. -/
def registerAll (rs : List RawSetting) : Except Err (List SettingClass) :=
  rs.foldlM register []

/-- The `ConfigFile` setting class body. -/
def rawConfigFile : RawSetting :=
  { name := "config", sect := "Config File", cli := ["-c", "--config"],
    meta := some "FILE", validator := .vstring, type := Option.none, action := Option.none,
    default := .none,
    desc := "        The path to a Gunicorn config file.\n        \n        Only has an effect when specified on the command line or as part of an\n        application specific configuration.    \n        " }

/-- The `Bind` setting class body. -/
def rawBind : RawSetting :=
  { name := "bind", sect := "Server Socket", cli := ["-b", "--bind"],
    meta := some "ADDRESS", validator := .vstring, type := Option.none, action := Option.none,
    default := .str "127.0.0.1:8000".toList,
    desc := "        The socket to bind.\n        \n        A string of the form: 'HOST', 'HOST:PORT', 'unix:PATH'. An IP is a valid\n        HOST.\n        " }

/-- The `Backlog` setting class body. -/
def rawBacklog : RawSetting :=
  { name := "backlog", sect := "Server Socket", cli := ["--backlog"],
    meta := some "INT", validator := .vposInt, type := some "int", action := Option.none,
    default := .int 2048,
    desc := "        The maximum number of pending connections.    \n        \n        This refers to the number of clients that can be waiting to be served.\n        Exceeding this number results in the client getting an error when\n        attempting to connect. It should only affect servers under significant\n        load.\n        \n        Must be a positive integer. Generally set in the 64-2048 range.    \n        " }

/-- The `Workers` setting class body. -/
def rawWorkers : RawSetting :=
  { name := "workers", sect := "Worker Processes", cli := ["-w", "--workers"],
    meta := some "INT", validator := .vposInt, type := some "int", action := Option.none,
    default := .int 1,
    desc := "        The number of worker process for handling requests.\n        \n        A positive integer generally in the 2-4 x $(NUM_CORES) range. You'll\n        want to vary this a bit to find the best for your particular\n        application's work load.\n        " }

/-- The `WorkerClass` setting class body. -/
def rawWorkerClass : RawSetting :=
  { name := "worker_class", sect := "Worker Processes", cli := ["-k", "--worker-class"],
    meta := some "STRING", validator := .vstring, type := Option.none, action := Option.none,
    default := .str "sync".toList,
    desc := "        The type of workers to use.\n        \n        The default class (sync) should handle most 'normal' types of workloads.\n        You'll want to read http://gunicorn.org/design.html for information on\n        when you might want to choose one of the other worker classes.\n        \n        A string referring to one of the following bundled classes:\n        \n        * ``sync``\n        * ``eventlet`` - Requires eventlet >= 0.9.7\n        * ``gevent``   - Requires gevent >= 0.12.2 (?)\n        * ``tornado``  - Requires tornado >= 0.2\n        \n        Optionally, you can provide your own worker by giving gunicorn a\n        MODULE:CLASS pair where CLASS is a subclass of\n        gunicorn.workers.base.Worker. This alternative syntax will load the\n        gevent class: ``egg:gunicorn#gevent``\n        " }

/-- The `WorkerConnections` setting class body. -/
def rawWorkerConnections : RawSetting :=
  { name := "worker_connections", sect := "Worker Processes", cli := ["--worker-connections"],
    meta := some "INT", validator := .vposInt, type := some "int", action := Option.none,
    default := .int 1000,
    desc := "        The maximum number of simultaneous clients.\n        \n        This setting only affects the Eventlet and Gevent worker types.\n        " }

/-- The `MaxRequests` setting class body. -/
def rawMaxRequests : RawSetting :=
  { name := "max_requests", sect := "Worker Processes", cli := ["--max-requests"],
    meta := some "INT", validator := .vposInt, type := some "int", action := Option.none,
    default := .int 0,
    desc := "        The maximum number of requests a worker will process before restarting.\n        \n        Any value greater than zero will limit the number of requests a work\n        will process before automatically restarting. This is a simple method\n        to help limit the damage of memory leaks.\n        \n        If this is set to zero (the default) then the automatic worker\n        restarts are disabled.\n        " }

/-- The `Timeout` setting class body. -/
def rawTimeout : RawSetting :=
  { name := "timeout", sect := "Worker Processes", cli := ["-t", "--timeout"],
    meta := some "INT", validator := .vposInt, type := some "int", action := Option.none,
    default := .int 30,
    desc := "        Workers silent for more than this many seconds are killed and restarted.\n        \n        Generally set to thirty seconds. Only set this noticeably higher if\n        you're sure of the repercussions for sync workers. For the non sync\n        workers it just means that the worker process is still communicating and\n        is not tied to the length of time required to handle a single request.\n        " }

/-- The `Keepalive` setting class body. -/
def rawKeepalive : RawSetting :=
  { name := "keepalive", sect := "Worker Processes", cli := ["--keep-alive"],
    meta := some "INT", validator := .vposInt, type := some "int", action := Option.none,
    default := .int 2,
    desc := "        The number of seconds to wait for requests on a Keep-Alive connection.\n        \n        Generally set in the 1-5 seconds range.    \n        " }

/-- The `Debug` setting class body. -/
def rawDebug : RawSetting :=
  { name := "debug", sect := "Debugging", cli := ["--debug"],
    meta := Option.none, validator := .vbool, type := Option.none, action := some "store_true",
    default := .bool false,
    desc := "        Turn on debugging in the server.\n        \n        This limits the number of worker processes to 1 and changes some error\n        handling that's sent to clients.\n        " }

/-- The `Spew` setting class body. -/
def rawSpew : RawSetting :=
  { name := "spew", sect := "Debugging", cli := ["--spew"],
    meta := Option.none, validator := .vbool, type := Option.none, action := some "store_true",
    default := .bool false,
    desc := "        Install a trace function that spews every line executed by the server.\n        \n        This is the nuclear option.    \n        " }

/-- The `PreloadApp` setting class body. -/
def rawPreloadApp : RawSetting :=
  { name := "preload_app", sect := "Server Mechanics", cli := ["--preload"],
    meta := Option.none, validator := .vbool, type := Option.none, action := some "store_true",
    default := .bool false,
    desc := "        Load application code before the worker processes are forked.\n        \n        By preloading an application you can save some RAM resources as well as\n        speed up server boot times. Although, if you defer application loading\n        to each worker process, you can reload your application code easily by\n        restarting workers.\n        " }

/-- The `Daemon` setting class body. -/
def rawDaemon : RawSetting :=
  { name := "daemon", sect := "Server Mechanics", cli := ["-D", "--daemon"],
    meta := Option.none, validator := .vbool, type := Option.none, action := some "store_true",
    default := .bool false,
    desc := "        Daemonize the Gunicorn process.\n        \n        Detaches the server from the controlling terminal and enters the\n        background.\n        " }

/-- The `Pidfile` setting class body. -/
def rawPidfile : RawSetting :=
  { name := "pidfile", sect := "Server Mechanics", cli := ["-p", "--pid"],
    meta := some "FILE", validator := .vstring, type := Option.none, action := Option.none,
    default := .none,
    desc := "        A filename to use for the PID file.\n        \n        If not set, no PID file will be written.\n        " }

/-- The `User` setting class body. -/
def rawUser : RawSetting :=
  { name := "user", sect := "Server Mechanics", cli := ["-u", "--user"],
    meta := some "USER", validator := .vuser, type := Option.none, action := Option.none,
    default := .none,
    desc := "        Switch worker processes to run as this user.\n        \n        A valid user id (as an integer) or the name of a user that can be\n        retrieved with a call to pwd.getpwnam(value) or None to not change\n        the worker process user.\n        " }

/-- The `Group` setting class body. -/
def rawGroup : RawSetting :=
  { name := "group", sect := "Server Mechanics", cli := ["-g", "--group"],
    meta := some "GROUP", validator := .vgroup, type := Option.none, action := Option.none,
    default := .none,
    desc := "        Switch worker process to run as this group.\n        \n        A valid group id (as an integer) or the name of a user that can be\n        retrieved with a call to pwd.getgrnam(value) or None to not change\n        the worker processes group.\n        " }

/-- The `Umask` setting class body. -/
def rawUmask : RawSetting :=
  { name := "umask", sect := "Server Mechanics", cli := ["-m", "--umask"],
    meta := some "INT", validator := .vposInt, type := some "int", action := Option.none,
    default := .int 0,
    desc := "        A bit mask for the file mode on files written by Gunicorn.\n        \n        Note that this affects unix socket permissions.\n        \n        A valid value for the os.umask(mode) call or a string compatible with\n        int(value, 0) (0 means Python guesses the base, so values like \"0\",\n        \"0xFF\", \"0022\" are valid for decimal, hex, and octal representations)\n        " }

/-- The `TmpUploadDir` setting class body. -/
def rawTmpUploadDir : RawSetting :=
  { name := "tmp_upload_dir", sect := "Server Mechanics", cli := [],
    meta := some "DIR", validator := .vstring, type := Option.none, action := Option.none,
    default := .none,
    desc := "        Directory to store temporary request data as they are read.\n        \n        This may disappear in the near future.\n        \n        This path should be writable by the process permissions set for Gunicorn\n        workers. If not specified, Gunicorn will choose a system generated\n        temporary directory.\n        " }

/-- The `Logfile` setting class body. -/
def rawLogfile : RawSetting :=
  { name := "logfile", sect := "Logging", cli := ["--log-file"],
    meta := some "FILE", validator := .vstring, type := Option.none, action := Option.none,
    default := .str "-".toList,
    desc := "        The log file to write to.\n        \n        \"-\" means log to stdout.\n        " }

/-- The `Loglevel` setting class body. -/
def rawLoglevel : RawSetting :=
  { name := "loglevel", sect := "Logging", cli := ["--log-level"],
    meta := some "LEVEL", validator := .vstring, type := Option.none, action := Option.none,
    default := .str "info".toList,
    desc := "        The granularity of log outputs.\n        \n        Valid level names are:\n        \n        * debug\n        * info\n        * warning\n        * error\n        * critical\n        " }

/-- The `LogConfig` setting class body. -/
def rawLogConfig : RawSetting :=
  { name := "logconfig", sect := "Logging", cli := ["--log-config"],
    meta := some "FILE", validator := .vstring, type := Option.none, action := Option.none,
    default := .none,
    desc := "        The log config file to use.\n        \n        Gunicorn uses the standard Python logging module's Configuration\n        file format.\n        " }

/-- The `Procname` setting class body. -/
def rawProcname : RawSetting :=
  { name := "proc_name", sect := "Process Naming", cli := ["-n", "--name"],
    meta := some "STRING", validator := .vstring, type := Option.none, action := Option.none,
    default := .none,
    desc := "        A base to use with setproctitle for process naming.\n        \n        This affects things like ``ps`` and ``top``. If you're going to be\n        running more than one instance of Gunicorn you'll probably want to set a\n        name to tell them apart. This requires that you install the setproctitle\n        module.\n        \n        It defaults to 'gunicorn'.\n        " }

/-- The `DefaultProcName` setting class body. -/
def rawDefaultProcName : RawSetting :=
  { name := "default_proc_name", sect := "Process Naming", cli := [],
    meta := Option.none, validator := .vstring, type := Option.none, action := Option.none,
    default := .str "gunicorn".toList,
    desc := "        Internal setting that is adjusted for each type of application.\n        " }

/-- The `WhenReady` setting class body. -/
def rawWhenReady : RawSetting :=
  { name := "when_ready", sect := "Server Hooks", cli := [],
    meta := Option.none, validator := .vcallable 1, type := some "callable", action := Option.none,
    default := .callable 1,
    desc := "        Called just after the server is started.\n        \n        The callable needs to accept a single instance variable for the Arbiter.\n        " }

/-- The `Prefork` setting class body. -/
def rawPrefork : RawSetting :=
  { name := "pre_fork", sect := "Server Hooks", cli := [],
    meta := Option.none, validator := .vcallable 2, type := some "callable", action := Option.none,
    default := .callable 2,
    desc := "        Called just before a worker is forked.\n        \n        The callable needs to accept two instance variables for the Arbiter and\n        new Worker.\n        " }

/-- The `Postfork` setting class body. -/
def rawPostfork : RawSetting :=
  { name := "post_fork", sect := "Server Hooks", cli := [],
    meta := Option.none, validator := .vcallable 2, type := some "callable", action := Option.none,
    default := .callable 2,
    desc := "        Called just after a worker has been forked.\n        \n        The callable needs to accept two instance variables for the Arbiter and\n        new Worker.\n        " }

/-- The `PreExec` setting class body. -/
def rawPreExec : RawSetting :=
  { name := "pre_exec", sect := "Server Hooks", cli := [],
    meta := Option.none, validator := .vcallable 1, type := some "callable", action := Option.none,
    default := .callable 1,
    desc := "        Called just before a new master process is forked.\n        \n        The callable needs to accept a single instance variable for the Arbiter.\n        " }

/-- The `PreRequest` setting class body. -/
def rawPreRequest : RawSetting :=
  { name := "pre_request", sect := "Server Hooks", cli := [],
    meta := Option.none, validator := .vcallable 2, type := some "callable", action := Option.none,
    default := .callable 2,
    desc := "        Called just before a worker processes the request.\n        \n        The callable needs to accept two instance variables for the Worker and\n        the Request.\n        " }

/-- The `PostRequest` setting class body. -/
def rawPostRequest : RawSetting :=
  { name := "post_request", sect := "Server Hooks", cli := [],
    meta := Option.none, validator := .vcallable 2, type := some "callable", action := Option.none,
    default := .callable 2,
    desc := "        Called after a worker processes the request.\n\n        The callable needs to accept two instance variables for the Worker and\n        the Request.\n        " }

/-- The `WorkerExit` setting class body. -/
def rawWorkerExit : RawSetting :=
  { name := "worker_exit", sect := "Server Hooks", cli := [],
    meta := Option.none, validator := .vcallable 2, type := some "callable", action := Option.none,
    default := .callable 2,
    desc := "        Called just after a worker has been exited.\n\n        The callable needs to accept two instance variables for the Arbiter and\n        the just-exited Worker.\n        " }

/-- The setting classes in declaration order: the contents of
`KNOWN_SETTINGS` after the module is imported. -/
def rawKnownSettings : List RawSetting :=
  [rawConfigFile,
   rawBind,
   rawBacklog,
   rawWorkers,
   rawWorkerClass,
   rawWorkerConnections,
   rawMaxRequests,
   rawTimeout,
   rawKeepalive,
   rawDebug,
   rawSpew,
   rawPreloadApp,
   rawDaemon,
   rawPidfile,
   rawUser,
   rawGroup,
   rawUmask,
   rawTmpUploadDir,
   rawLogfile,
   rawLoglevel,
   rawLogConfig,
   rawProcname,
   rawDefaultProcName,
   rawWhenReady,
   rawPrefork,
   rawPostfork,
   rawPreExec,
   rawPreRequest,
   rawPostRequest,
   rawWorkerExit]

/-! ## Live settings and the Config object -/

/-- A live `Setting` instance: its class plus the mutable `value` slot. -/
structure Holder where
  cls : SettingClass
  value : Val
deriving DecidableEq, Repr

/-- `Setting.__init__`: the class attribute `value` starts as `None`; when
the declared default is not `None` it is passed through the validator
(`self.set(self.default)`), a failure propagating to the caller. -/
def settingInit (ext : Externals) (cls : SettingClass) : Except Err Holder :=
  match cls.default with
  | .none => .ok ⟨cls, .none⟩
  | d => do
    let v ← runValidator ext cls.validator d
    .ok ⟨cls, v⟩

/-- Lookup in a Python-dict-as-association-list. -/
def assocLookup (k : String) : List (String × α) → Option α
  | [] => Option.none
  | (k', v) :: rest => if k' = k then some v else assocLookup k rest

/-- Dict assignment: overwrite the existing key or append a new entry. -/
def assocSet (k : String) (v : α) : List (String × α) → List (String × α)
  | [] => [(k, v)]
  | (k', v') :: rest => if k' = k then (k, v) :: rest else (k', v') :: assocSet k v rest

/-- `make_settings(ignore)`: instantiate each registered class in catalog
order (applying its default through the validator), skip ignored names and
store a copy of each instance keyed by its name. -/
def make_settings (ext : Externals) (ks : List SettingClass)
    (ignore : List String) : Except Err (List (String × Holder)) :=
  ks.foldlM (fun st cls => do
    let h ← settingInit ext cls
    if cls.name ∈ ignore then .ok st
    else .ok (assocSet cls.name h st)) []

/-- A `Config` instance: the `settings` dict plus the other instance
attributes (`usage`, and whatever is later assigned field-style). Python
would also let the name "settings" itself be rebound; that single slot is
modelled as an ordinary `attrs` entry. -/
structure Config where
  settings : List (String × Holder)
  attrs : List (String × Val)
deriving DecidableEq, Repr

/-- `Config.__init__(usage)` on the module's registry. -/
def configInit (ext : Externals) (usage : Val) : Except Err Config := do
  let ks ← registerAll rawKnownSettings
  let st ← make_settings ext ks []
  .ok ⟨st, [("usage", usage)]⟩

/-- The structured read (the spec's `get(name)`): the body of
`Config.__getattr__`, `self.settings[name].get()`, raising
`AttributeError` for an unknown name. -/
def configGet (cfg : Config) (name : String) : Except Err Val :=
  match assocLookup name cfg.settings with
  | some h => .ok h.value
  | Option.none => .error (.attributeError "No configuration setting")

/-- `Config.set(name, value)` as a state transformer: the first component
is the raised exception or unit, the second the object afterwards.
`Setting.set` runs `self.value = self.validator(val)`, so when the
validator raises, the assignment never executes and the object is
untouched. -/
def configSetSt (ext : Externals) (cfg : Config) (name : String) (v : Val) :
    Except Err Unit × Config :=
  match assocLookup name cfg.settings with
  | Option.none => (.error (.attributeError "No configuration setting"), cfg)
  | some h =>
    match runValidator ext h.cls.validator v with
    | .error e => (.error e, cfg)
    | .ok v' =>
      (.ok (), { cfg with settings := assocSet name ⟨h.cls, v'⟩ cfg.settings })

/-- `Config.__setattr__` as a state transformer: a name other than
"settings" that is a key of the settings dict is rejected with
`AttributeError("Invalid access!")`; any other assignment goes to the
instance dictionary via `super().__setattr__`. -/
def pySetattrSt (cfg : Config) (name : String) (v : Val) :
    Except Err Unit × Config :=
  if name ≠ "settings" ∧ (assocLookup name cfg.settings).isSome then
    (.error (.attributeError "Invalid access!"), cfg)
  else
    (.ok (), { cfg with attrs := assocSet name v cfg.attrs })

/-- Result of Python attribute lookup on a `Config` instance. -/
inductive AttrResult
  | val (v : Val)
  | settingsDict (d : List (String × Holder))
  | boundMethod (m : String)
  | exn (e : Err)
deriving DecidableEq, Repr

/-- Python attribute lookup on a `Config` instance: properties (data
descriptors) first, then the instance dictionary, then the class methods,
and only then `Config.__getattr__`. `util.load_worker_class` and
`util.parse_address(util.to_bytestring(...))` are external collaborators
passed in as functions (`worker_class.setup()` is a side effect that does
not change the returned value). -/
def pyGetattr (loadWorkerClass parseAddress : Val → Val) (cfg : Config)
    (name : String) : AttrResult :=
  if name = "worker_class" then
    match assocLookup "worker_class" cfg.settings with
    | some h => .val (loadWorkerClass h.value)
    | Option.none => .exn .keyError
  else if name = "workers" then
    match assocLookup "workers" cfg.settings with
    | some h => .val h.value
    | Option.none => .exn .keyError
  else if name = "address" then
    match assocLookup "bind" cfg.settings with
    | some h => .val (parseAddress h.value)
    | Option.none => .exn .keyError
  else if name = "uid" then
    match assocLookup "user" cfg.settings with
    | some h => .val h.value
    | Option.none => .exn .keyError
  else if name = "gid" then
    match assocLookup "group" cfg.settings with
    | some h => .val h.value
    | Option.none => .exn .keyError
  else if name = "proc_name" then
    match assocLookup "proc_name" cfg.settings with
    | some h =>
      if h.value ≠ Val.none then .val h.value
      else
        match assocLookup "default_proc_name" cfg.settings with
        | some h' => .val h'.value
        | Option.none => .exn .keyError
    | Option.none => .exn .keyError
  else if name = "settings" then .settingsDict cfg.settings
  else
    match assocLookup name cfg.attrs with
    | some v => .val v
    | Option.none =>
      if name = "set" ∨ name = "parser" then .boundMethod name
      else
        match assocLookup name cfg.settings with
        | some h => .val h.value
        | Option.none => .exn (.attributeError "No configuration setting")

/-! ## CLI parser builder -/

/-- The keyword arguments `Setting.add_option` passes to
`parser.add_option` (plus the positional flag strings). -/
structure OptionSpec where
  args : List String
  dest : String
  metavar : Option String
  action : String
  type : Option String
  default : Val
  help : List Char
deriving DecidableEq, Repr

/-- Decimal rendering of an integer, as Python's `str`. -/
def intToDec (n : Int) : List Char :=
  if n < 0 then '-' :: Nat.toDigits 10 n.natAbs else Nat.toDigits 10 n.toNat

/-- Python `"%s" % v` for the values that occur as setting defaults. A
function's repr string is not observable in any claim; a fixed placeholder
stands in for `<function ...>`. -/
def pyStr : Val → List Char
  | .none => "None".toList
  | .bool true => "True".toList
  | .bool false => "False".toList
  | .int n => intToDec n
  | .str s => s
  | .callable _ => "<function>".toList

/-- `Setting.add_option`: nothing is emitted for a falsy `cli`; otherwise
the option spec, with `dest` the setting name, help text
`"%s [%s]" % (self.short, self.default)`, `action` defaulting to "store",
`type` defaulting to "string" but popped when the action is not "store",
and `default` always `None`. -/
def add_option (s : SettingClass) : List OptionSpec :=
  if s.cli.isEmpty then [] else
    let act := match s.action with
      | some a => if a.isEmpty then "store" else a
      | Option.none => "store"
    [{ args := s.cli,
       dest := s.name,
       metavar := match s.meta with
         | some m => if m.isEmpty then Option.none else some m
         | Option.none => Option.none,
       action := act,
       type := if act ≠ "store" then Option.none
               else some (match s.type with
                 | some t => if t.isEmpty then "string" else t
                 | Option.none => "string"),
       default := Val.none,
       help := s.short ++ " [".toList ++ pyStr s.default ++ "]".toList }]

/-- The sort key `(self.settings[k].section, self.settings[k].order)`.
The fallback is unreachable because keys come from the dict itself. -/
def sorterKey (st : List (String × Holder)) (k : String) : String × Nat :=
  match assocLookup k st with
  | some h => (h.cls.sect, h.cls.order)
  | Option.none => ("", 0)

/-- Python tuple comparison on `(section, order)`: lexicographic. -/
def pairLe (a b : String × Nat) : Prop :=
  a.1 < b.1 ∨ (a.1 = b.1 ∧ a.2 ≤ b.2)

instance : DecidableRel pairLe := fun a b => by
  unfold pairLe; infer_instance

/-- Boolean form of `pairLe` for `mergeSort`. -/
def pairLeB (a b : String × Nat) : Bool := decide (pairLe a b)

/-- `Config.parser()`: sort the dict's keys by `(section, order)` and let
each setting add its option. Only the emitted list of option specs is
modelled; the surrounding `OptionParser` is an external collaborator. -/
def parserOptions (cfg : Config) : List OptionSpec :=
  let keys := cfg.settings.map Prod.fst
  let sorted := keys.mergeSort
    (fun a b => pairLeB (sorterKey cfg.settings a) (sorterKey cfg.settings b))
  sorted.flatMap (fun k =>
    match assocLookup k cfg.settings with
    | some h => add_option h.cls
    | Option.none => [])

/-! ## Derived definitions used by the verification -/

/-- The sort key of a live setting, `(section, order)`. -/
def holderKey (h : Holder) : String × Nat := (h.cls.sect, h.cls.order)

/-- `pairLe` lifted to settings-dict entries. -/
def entLeB (p q : String × Holder) : Bool := pairLeB (holderKey p.2) (holderKey q.2)

/-- Propositional form of `entLeB`. -/
def entLeP (p q : String × Holder) : Prop := pairLe (holderKey p.2) (holderKey q.2)

/-- The single option spec `add_option` emits for a setting with CLI
flags (so that `add_option s = if s.cli.isEmpty then [] else [mkOption s]`). -/
def mkOption (s : SettingClass) : OptionSpec :=
  let act := match s.action with
    | some a => if a.isEmpty then "store" else a
    | Option.none => "store"
  { args := s.cli,
    dest := s.name,
    metavar := match s.meta with
      | some m => if m.isEmpty then Option.none else some m
      | Option.none => Option.none,
    action := act,
    type := if act ≠ "store" then Option.none
            else some (match s.type with
              | some t => if t.isEmpty then "string" else t
              | Option.none => "string"),
    default := Val.none,
    help := s.short ++ " [".toList ++ pyStr s.default ++ "]".toList }

/-- A concrete instantiation of the external capabilities: effective
uid/gid 1000, a user database containing exactly `frank ↦ 42`, an empty
group database. -/
def ext0 : Externals :=
  ⟨1000, 1000, fun s => if s = "frank".toList then some 42 else Option.none,
   fun _ => Option.none⟩

/-- The registry contents after importing the module. -/
def knownList : List SettingClass :=
  match registerAll rawKnownSettings with
  | .ok l => l
  | .error _ => []

/-- The freshly built configuration object `Config()` (at `ext0`,
`usage = None`), before any `set` call. -/
def freshConfig : Config :=
  match configInit ext0 Val.none with
  | .ok c => c
  | .error _ => ⟨[], []⟩

/-- A minimal well-formed documentation string. -/
def rawDoc (name : String) (doc : String) : RawSetting :=
  { name := name, sect := "S", cli := [], meta := Option.none,
    validator := .vstring, type := Option.none, action := Option.none,
    default := .none, desc := doc }

/-- Identity stand-in for the external loaders in attribute lookups that
do not reach them. -/
def idVal : Val → Val := fun v => v

/-- A settings class shaped like the registered `Workers` class. -/
def workersClsW : SettingClass :=
  { name := "workers", sect := "Worker Processes", cli := ["-w", "--workers"],
    meta := some "INT", validator := .vposInt, type := some "int",
    action := Option.none, default := .int 1,
    desc := "The number of worker process for handling requests.".toList,
    short := "The number of worker process for handling requests.".toList,
    order := 3 }

/-- A small configuration object holding one `workers` setting. -/
def cfgW : Config := ⟨[("workers", ⟨workersClsW, .int 1⟩)], [("usage", .none)]⟩

/-- A settings class shaped like the registered `Bind` class. -/
def bindClsW : SettingClass :=
  { name := "bind", sect := "Server Socket", cli := ["-b", "--bind"],
    meta := some "ADDRESS", validator := .vstring, type := Option.none,
    action := Option.none, default := .str "127.0.0.1:8000".toList,
    desc := "The socket to bind.".toList,
    short := "The socket to bind.".toList, order := 1 }

/-- A small configuration object holding one `bind` setting. -/
def cfgB : Config :=
  ⟨[("bind", ⟨bindClsW, .str "127.0.0.1:8000".toList⟩)], [("usage", .none)]⟩

/-- A settings class shaped like the registered `DefaultProcName` class:
no CLI flags. -/
def defaultProcClsW : SettingClass :=
  { name := "default_proc_name", sect := "Process Naming", cli := [],
    meta := Option.none, validator := .vstring, type := Option.none,
    action := Option.none, default := .str "gunicorn".toList,
    desc := "Internal setting that is adjusted for each type of application.".toList,
    short := "Internal setting that is adjusted for each type of application.".toList,
    order := 22 }

/-- A three-setting configuration object across two sections. -/
def cfg9 : Config :=
  ⟨[("workers", ⟨workersClsW, .int 1⟩), ("bind", ⟨bindClsW, .str "h".toList⟩),
    ("default_proc_name", ⟨defaultProcClsW, .str "gunicorn".toList⟩)],
   [("usage", .none)]⟩

/-- The same settings dict in a different iteration order. -/
def cfg9p : Config :=
  ⟨[("default_proc_name", ⟨defaultProcClsW, .str "gunicorn".toList⟩),
    ("bind", ⟨bindClsW, .str "h".toList⟩), ("workers", ⟨workersClsW, .int 1⟩)],
   [("usage", .none)]⟩

/-! ## Shared evaluation facts -/

set_option maxRecDepth 2000000 in
/-- Importing the module succeeds and yields `knownList`. -/
theorem knownList_eval : registerAll rawKnownSettings = .ok knownList := rfl

set_option maxRecDepth 2000000 in
/-- On every fresh configuration object the held value of `user` is
`None`: the `User` class declares `default = None` and `Setting.__init__`
only applies non-`None` defaults. -/
theorem fresh_user_none (ext : Externals) (usage : Val) :
    (configInit ext usage).map (fun c => configGet c "user") = .ok (.ok Val.none) := rfl

/-! ## C5: the user validator -/

/-- C5. The user validator maps `None` to the effective uid and digit
strings to literal ids, resolves other strings through the user database
(`ConfigError` naming a missing user) — but an *integer* input does not
reach the `isinstance(val, int)` test: `val.isdigit()` is evaluated first
and raises `AttributeError`, contradicting both the claim and the `User`
class's own docstring ("A valid user id (as an integer)..."). -/
theorem c5_user_validator :
    validate_user 1000 ext0.getpwnam Val.none = .ok (.int 1000)
  ∧ validate_user 1000 ext0.getpwnam (.str "105".toList) = .ok (.int 105)
  ∧ validate_user 1000 ext0.getpwnam (.str "frank".toList) = .ok (.int 42)
  ∧ validate_user 1000 ext0.getpwnam (.str "nosuch".toList)
      = .error (.configError "nosuch".toList)
  ∧ validate_user 1000 ext0.getpwnam (.int 1000)
      = .error (.attributeError "isdigit") := by
  refine ⟨rfl, by decide, by decide, by decide, rfl⟩

/-! ## C6: the positive-integer validator -/

/-- C6. `validate_pos_int` accepts integers as they are (booleans as 0/1),
parses strings with base-0 semantics (`"0x10" = 16`, `"010" = 8` octal,
`"10" = 10`), accepts 0 and fails on every negative result. -/
theorem c6_pos_int :
    (∀ n : Int, validate_pos_int (.int n)
        = if n < 0 then .error .valueError else .ok (.int n))
  ∧ (∀ b : Bool, validate_pos_int (.bool b) = .ok (.int (if b then 1 else 0)))
  ∧ validate_pos_int (.str "0x10".toList) = .ok (.int 16)
  ∧ validate_pos_int (.str "010".toList) = .ok (.int 8)
  ∧ validate_pos_int (.str "10".toList) = .ok (.int 10)
  ∧ validate_pos_int (.str "0".toList) = .ok (.int 0)
  ∧ validate_pos_int (.str "-1".toList) = .error .valueError
  ∧ (∀ s n, pyIntBase0 s = .ok n → n < 0 →
      validate_pos_int (.str s) = .error .valueError) := by
  refine ⟨fun n => rfl, fun b => by cases b <;> rfl, by decide, by decide, by decide,
    by decide, by decide, fun s n h hneg => ?_⟩
  have e : validate_pos_int (.str s)
      = (pyIntBase0 s).bind (fun m => if m < 0 then .error .valueError else .ok (.int m)) :=
    rfl
  rw [e, h]
  simp [Except.bind, hneg]

/-- Witness for C6: the hypothesis-bearing conjunct at `"-1"`. -/
theorem c6_pos_int_witness :
    validate_pos_int (.str "-1".toList) = .error .valueError :=
  c6_pos_int.2.2.2.2.2.2.2 "-1".toList (-1) (by decide) (by decide)

/-! ## C2: the default of the user setting -/

/-- C2 counterexample. On the freshly built configuration object with
effective uid 1000, `get("user")` returns `None`, not `1000`: the claim
fails at the concrete input `ext0`. -/
theorem c2_counterexample :
    (configInit ext0 Val.none).map (fun c => configGet c "user") = .ok (.ok Val.none)
  ∧ ext0.geteuid = 1000
  ∧ Val.none ≠ Val.int 1000 :=
  ⟨fresh_user_none ext0 Val.none, rfl, by decide⟩

/-- C2 amended. Before any `set()` call, `get("user")` on a freshly built
configuration object returns `None`: the `user` descriptor's declared
default is `None`, and `Setting.__init__` passes only non-`None` defaults
through the validator. The effective uid appears only when the user
validator actually runs on `None`. -/
theorem c2_amended :
    (∀ ext usage,
      (configInit ext usage).map (fun c => configGet c "user") = .ok (.ok Val.none))
  ∧ (∀ ext : Externals, runValidator ext .vuser Val.none = .ok (.int ext.geteuid)) :=
  ⟨fun ext usage => fresh_user_none ext usage, fun ext => rfl⟩

/-! ## Association-list lemmas -/

theorem assocLookup_assocSet_self (k : String) (v : α) (l : List (String × α)) :
    assocLookup k (assocSet k v l) = some v := by
  induction l with
  | nil => simp [assocSet, assocLookup]
  | cons p rest ih =>
    obtain ⟨k', v'⟩ := p
    by_cases h : k' = k
    · simp [assocSet, assocLookup, h]
    · simp [assocSet, assocLookup, h, ih]

theorem assocLookup_assocSet_ne (k n : String) (v : α) (l : List (String × α))
    (hne : n ≠ k) : assocLookup n (assocSet k v l) = assocLookup n l := by
  induction l with
  | nil => simp [assocSet, assocLookup, Ne.symm hne]
  | cons p rest ih =>
    obtain ⟨k', v'⟩ := p
    by_cases h : k' = k
    · subst h
      simp [assocSet, assocLookup, Ne.symm hne]
    · simp only [assocSet, if_neg h]
      by_cases h2 : k' = n
      · simp [assocLookup, h2]
      · simp [assocLookup, h2, ih]

/-! ## C4: set runs the validator; failure leaves the object unchanged -/

/-- C4. For a registered name, `set(name, raw)` runs the descriptor's
validator on the raw value; on success the held value is replaced by the
validator's result and every other setting is untouched; on failure the
validator's error propagates and the configuration object is unchanged. -/
theorem c4_set_validates (ext : Externals) (cfg : Config) (name : String)
    (v : Val) (h : Holder) (hl : assocLookup name cfg.settings = some h) :
    (∀ e, runValidator ext h.cls.validator v = .error e →
        configSetSt ext cfg name v = (.error e, cfg))
  ∧ ∀ v', runValidator ext h.cls.validator v = .ok v' →
      configSetSt ext cfg name v
          = (.ok (), { cfg with settings := assocSet name ⟨h.cls, v'⟩ cfg.settings })
        ∧ configGet { cfg with settings := assocSet name ⟨h.cls, v'⟩ cfg.settings } name
            = .ok v'
        ∧ ∀ n, n ≠ name →
            configGet { cfg with settings := assocSet name ⟨h.cls, v'⟩ cfg.settings } n
              = configGet cfg n := by
  constructor
  · intro e he
    simp [configSetSt, hl, he]
  · intro v' hv
    refine ⟨by simp [configSetSt, hl, hv], ?_, ?_⟩
    · simp [configGet, assocLookup_assocSet_self]
    · intro n hn
      simp [configGet, assocLookup_assocSet_ne name n _ _ hn]

/-- Witness for C4: `set("workers", "4")` stores `4`;
`set("workers", "-4")` raises `ValueError` and leaves the object as it
was. -/
theorem c4_set_validates_witness :
    configSetSt ext0 cfgW "workers" (.str "4".toList)
        = (.ok (), { cfgW with
            settings := assocSet "workers" ⟨workersClsW, .int 4⟩ cfgW.settings })
  ∧ configSetSt ext0 cfgW "workers" (.str "-4".toList) = (.error .valueError, cfgW) :=
  ⟨((c4_set_validates ext0 cfgW "workers" (.str "4".toList) ⟨workersClsW, .int 1⟩
      (by decide)).2 (.int 4) (by decide)).1,
   (c4_set_validates ext0 cfgW "workers" (.str "-4".toList) ⟨workersClsW, .int 1⟩
      (by decide)).1 .valueError (by decide)⟩

/-! ## C8: field-style assignment -/

/-- C8. Field-style assignment to a registered setting name raises
`AttributeError("Invalid access!")` and leaves the object unchanged, while
assignment to a name that is not a registered setting succeeds normally,
storing into the instance dictionary. (The `__setattr__` bootstrap
exemption concerns only the name "settings", which no configuration
registers — hence the hypothesis.) -/
theorem c8_setattr (cfg : Config) (name : String) (v : Val)
    (hs : assocLookup "settings" cfg.settings = Option.none) :
    ((assocLookup name cfg.settings).isSome →
      pySetattrSt cfg name v = (.error (.attributeError "Invalid access!"), cfg))
  ∧ (assocLookup name cfg.settings = Option.none →
      pySetattrSt cfg name v
        = (.ok (), { cfg with attrs := assocSet name v cfg.attrs })) := by
  constructor
  · intro hsome
    have hne : name ≠ "settings" := by
      intro e
      rw [e, hs] at hsome
      simp at hsome
    simp [pySetattrSt, hne, hsome]
  · intro hnone
    simp [pySetattrSt, hnone]

/-- Witness for C8: on the small configuration object, assigning the
registered name `workers` is rejected with the object unchanged, while
assigning the fresh name `foo` succeeds. -/
theorem c8_setattr_witness :
    pySetattrSt cfgW "workers" (.int 4)
        = (.error (.attributeError "Invalid access!"), cfgW)
  ∧ pySetattrSt cfgW "foo" (.int 4)
        = (.ok (), { cfgW with attrs := assocSet "foo" (.int 4) cfgW.attrs }) :=
  ⟨(c8_setattr cfgW "workers" (.int 4) (by decide)).1 (by decide),
   (c8_setattr cfgW "foo" (.int 4) (by decide)).2 (by decide)⟩

/-! ## Registration chains: C1 and C7 -/

/-- `Except` bind on a success. -/
theorem except_bind_ok (a : α) (f : α → Except ε β) :
    ((Except.ok a : Except ε α) >>= f) = f a := rfl

/-- `Except` bind on a failure. -/
theorem except_bind_error (e : ε) (f : α → Except ε β) :
    ((Except.error e : Except ε α) >>= f) = .error e := rfl

/-- What one successful registration appends: the raw attributes with
`order = len(KNOWN_SETTINGS)` and the normalized documentation. There is
no duplicate-name test: the append happens whatever `r.name` is. -/
theorem register_ok (ks : List SettingClass) (r : RawSetting) (d s : List Char)
    (h : fmt_desc r.desc.toList = .ok (d, s)) :
    register ks r = .ok (ks ++ [mkRegistered r d s ks.length]) := by
  unfold register
  rw [h]
  rfl

/-- A failed `fmt_desc` fails the registration. -/
theorem register_error {ks : List SettingClass} {r : RawSetting} {e : Err}
    (hf : fmt_desc r.desc.toList = .error e) : register ks r = .error e := by
  unfold register
  rw [hf]
  rfl

/-- Conversely, a successful registration has this shape. -/
theorem register_ok_shape (ks ks' : List SettingClass) (r : RawSetting)
    (h : register ks r = .ok ks') :
    ∃ d s, fmt_desc r.desc.toList = .ok (d, s)
      ∧ ks' = ks ++ [mkRegistered r d s ks.length] := by
  cases hf : fmt_desc r.desc.toList with
  | error e =>
    rw [register_error hf] at h
    cases h
  | ok ds =>
    obtain ⟨d, s⟩ := ds
    refine ⟨d, s, rfl, ?_⟩
    rw [register_ok ks r d s hf] at h
    exact (Except.ok.inj h).symm

/-- Orders and names along a successful chain of registrations, starting
from an arbitrary catalog. -/
theorem foldlM_register_spec (rs : List RawSetting) :
    ∀ ks l, List.foldlM register ks rs = .ok l →
      l.map SettingClass.order
          = ks.map SettingClass.order ++ List.range' ks.length rs.length
      ∧ l.map SettingClass.name
          = ks.map SettingClass.name ++ rs.map RawSetting.name := by
  induction rs with
  | nil =>
    intro ks l h
    obtain rfl :=
      Except.ok.inj (h : (Except.ok ks : Except Err (List SettingClass)) = .ok l)
    simp
  | cons r rest ih =>
    intro ks l h
    rw [List.foldlM_cons] at h
    cases hr : register ks r with
    | error e =>
      rw [hr, except_bind_error] at h
      cases h
    | ok ks' =>
      rw [hr, except_bind_ok] at h
      obtain ⟨d, s, _, hshape⟩ := register_ok_shape ks ks' r hr
      obtain ⟨ho, hn⟩ := ih ks' l h
      subst hshape
      constructor
      · rw [ho]
        simp [mkRegistered, List.range'_succ]
      · rw [hn]
        simp [mkRegistered]

/-- C7. Along any successful sequence of registrations from the empty
registry, the resulting descriptors carry `order` values exactly
`0..N-1` in registration order: each one's `order` was the registry's
size at the moment it was appended. -/
theorem c7_orders (rs : List RawSetting) (l : List SettingClass)
    (h : registerAll rs = .ok l) :
    l.map SettingClass.order = List.range rs.length := by
  have := (foldlM_register_spec rs [] l h).1
  simpa [List.range_eq_range'] using this

/-- Witness for C7: the actual registry carries orders `0..29`. -/
theorem c7_orders_witness :
    knownList.map SettingClass.order = List.range rawKnownSettings.length :=
  c7_orders rawKnownSettings knownList knownList_eval

/-! ## C1: no duplicate-name check at registration -/

/-- C1 counterexample. Registering a second descriptor with the name of
one already in the registry does not fail: both registrations succeed and
the catalog ends with the name "x" twice. -/
theorem c1_counterexample :
    Except.map (fun l => l.map SettingClass.name)
        (registerAll [rawDoc "x" "xdoc", rawDoc "x" "xdoc"])
      = .ok ["x", "x"] := by
  decide

/-- C1 amended. `register` appends unconditionally (assigning
`order = len(catalog)`) whenever the documentation normalizes; it performs
no duplicate-name check and raises no `DuplicateSetting` error. The names
of all registered descriptors are nevertheless pairwise distinct for the
actual catalog, because the thirty declared setting names are pairwise
distinct. -/
theorem c1_amended :
    (∀ ks r d s, fmt_desc (RawSetting.desc r).toList = .ok (d, s) →
      register ks r = .ok (ks ++ [mkRegistered r d s ks.length]))
  ∧ (rawKnownSettings.map RawSetting.name).Nodup
  ∧ (∀ l, registerAll rawKnownSettings = .ok l →
      (l.map SettingClass.name).Nodup) := by
  refine ⟨register_ok, by decide, fun l h => ?_⟩
  have := (foldlM_register_spec rawKnownSettings [] l h).2
  simp at this
  rw [this]
  decide

/-- Witness for C1: instantiating both hypothesis-bearing parts — one
registration on the empty catalog, and the distinctness of the actual
registry's names. -/
theorem c1_amended_witness :
    register [] (rawDoc "x" "xdoc")
        = .ok [mkRegistered (rawDoc "x" "xdoc") "xdoc".toList "xdoc".toList 0]
  ∧ (knownList.map SettingClass.name).Nodup :=
  ⟨c1_amended.1 [] (rawDoc "x" "xdoc") "xdoc".toList "xdoc".toList (by decide),
   c1_amended.2.2 knownList knownList_eval⟩

/-! ## C3: field-style reads versus get -/

set_option maxRecDepth 2000000 in
/-- C3 counterexample. On the freshly built configuration object, the
field-style read of the registered name `proc_name` goes through the
`proc_name` *property*, which falls back to `default_proc_name` and
returns `"gunicorn"`, while `get("proc_name")` returns the held value
`None`: the two reads differ. -/
theorem c3_counterexample :
    configInit ext0 Val.none = .ok freshConfig
  ∧ pyGetattr idVal idVal freshConfig "proc_name" = .val (.str "gunicorn".toList)
  ∧ configGet freshConfig "proc_name" = .ok Val.none
  ∧ Val.str "gunicorn".toList ≠ Val.none :=
  ⟨rfl, rfl, rfl, by decide⟩

/-- C3 amended. A field-style read of a registered setting name agrees
with `get(name)` for every name that is not shadowed by a class property
or by an instance attribute; of the shadowed setting names, `workers`
still agrees with `get("workers")` (a pass-through property), while
`worker_class` and `proc_name` are computed differently. A name that is
neither registered nor otherwise an attribute raises `AttributeError`,
as `get` does. -/
theorem c3_amended (lwc pa : Val → Val) (cfg : Config) (name : String)
    (hshadow : name ∉ ["worker_class", "workers", "address", "uid", "gid",
        "proc_name", "settings", "set", "parser"])
    (hattrs : assocLookup name cfg.attrs = Option.none) :
    (∀ h : Holder, assocLookup name cfg.settings = some h →
        pyGetattr lwc pa cfg name = .val h.value ∧ configGet cfg name = .ok h.value)
  ∧ (assocLookup name cfg.settings = Option.none →
        pyGetattr lwc pa cfg name = .exn (.attributeError "No configuration setting")
      ∧ configGet cfg name = .error (.attributeError "No configuration setting"))
  ∧ (∀ h : Holder, assocLookup "workers" cfg.settings = some h →
        pyGetattr lwc pa cfg "workers" = .val h.value) := by
  simp only [List.mem_cons, List.not_mem_nil, or_false, not_or] at hshadow
  obtain ⟨h1, h2, h3, h4, h5, h6, h7, h8, h9⟩ := hshadow
  refine ⟨fun h hl => ⟨?_, ?_⟩, fun hl => ⟨?_, ?_⟩, fun h hl => ?_⟩
  · simp [pyGetattr, h1, h2, h3, h4, h5, h6, h7, h8, h9, hattrs, hl]
  · simp [configGet, hl]
  · simp [pyGetattr, h1, h2, h3, h4, h5, h6, h7, h8, h9, hattrs, hl]
  · simp [configGet, hl]
  · simp [pyGetattr, hl]

/-- Witness for C3 (amended): reading the unshadowed registered name
`bind` field-style gives exactly `get("bind")`, and reading the unknown
name `nope` raises `AttributeError`. -/
theorem c3_amended_witness :
    (pyGetattr idVal idVal cfgB "bind" = .val (.str "127.0.0.1:8000".toList)
      ∧ configGet cfgB "bind" = .ok (.str "127.0.0.1:8000".toList))
  ∧ (pyGetattr idVal idVal cfgB "nope"
        = .exn (.attributeError "No configuration setting")
      ∧ configGet cfgB "nope" = .error (.attributeError "No configuration setting")) :=
  ⟨(c3_amended idVal idVal cfgB "bind" (by decide) (by decide)).1
      ⟨bindClsW, .str "127.0.0.1:8000".toList⟩ (by decide),
   (c3_amended idVal idVal cfgB "nope" (by decide) (by decide)).2.1 (by decide)⟩


/-! ## C10 support: dedent and strip preserve blankness and content -/

/-- A space/tab character is Python whitespace. -/
theorem pyIsSpace_of_indent {c : Char} (h : isIndentChar c = true) :
    pyIsSpace c = true := by
  simp only [isIndentChar, Bool.or_eq_true, beq_iff_eq] at h
  rcases h with h | h <;> simp [pyIsSpace, h]

/-- `splitNl` never returns the empty list of lines. -/
theorem splitNl_ne_nil (s : List Char) : splitNl s ≠ [] := by
  cases s with
  | nil => simp [splitNl]
  | cons c rest =>
    simp only [splitNl]
    split
    · simp
    · split <;> simp

/-- Every line of `splitNl` draws its characters from the input. -/
theorem splitNl_all {p : Char → Bool} :
    ∀ {s : List Char}, s.all p = true → ∀ l ∈ splitNl s, l.all p = true := by
  intro s
  induction s with
  | nil =>
    intro _ l hl
    simp [splitNl] at hl
    simp [hl]
  | cons c rest ih =>
    intro hs l hl
    rw [List.all_cons, Bool.and_eq_true] at hs
    obtain ⟨hc, hrest⟩ := hs
    simp only [splitNl] at hl
    split at hl
    · rcases List.mem_cons.mp hl with rfl | hl'
      · simp
      · exact ih hrest l hl'
    · split at hl
      · next hsp =>
        simp at hl
        subst hl
        simp [hc]
      · next l0 ls0 hsp =>
        rcases List.mem_cons.mp hl with rfl | hl'
        · have := ih hrest l0 (by rw [hsp]; exact List.mem_cons_self l0 ls0)
          simp [hc, this]
        · exact ih hrest l (by rw [hsp]; exact List.mem_cons_of_mem l0 hl')

/-- A character of the input other than a newline lands in some line. -/
theorem mem_splitNl {c : Char} :
    ∀ {s : List Char}, c ∈ s → c ≠ '\n' → ∃ l ∈ splitNl s, c ∈ l := by
  intro s
  induction s with
  | nil => intro h _; cases h
  | cons a rest ih =>
    intro hc hne
    by_cases ha : a = '\n'
    · subst ha
      have hcr : c ∈ rest := by
        cases hc with
        | head => exact absurd rfl hne
        | tail _ h => exact h
      obtain ⟨l, hl, hcl⟩ := ih hcr hne
      refine ⟨l, ?_, hcl⟩
      simp [splitNl, hl]
    · rcases List.mem_cons.mp hc with rfl | hcr
      · cases hsp : splitNl rest with
        | nil => exact absurd hsp (splitNl_ne_nil rest)
        | cons l0 ls0 =>
          refine ⟨c :: l0, ?_, List.mem_cons_self c l0⟩
          simp [splitNl, ha, hsp]
      · obtain ⟨l, hl, hcl⟩ := ih hcr hne
        cases hsp : splitNl rest with
        | nil => rw [hsp] at hl; cases hl
        | cons l0 ls0 =>
          rw [hsp] at hl
          rcases List.mem_cons.mp hl with rfl | hl'
          · refine ⟨a :: l, ?_, List.mem_cons_of_mem a hcl⟩
            simp [splitNl, ha, hsp]
          · refine ⟨l, ?_, hcl⟩
            simp [splitNl, ha, hsp, hl']

/-- `joinNl` has only newlines and the lines' own characters. -/
theorem joinNl_all {p : Char → Bool} (hnl : p '\n' = true) :
    ∀ {ls : List (List Char)}, (∀ l ∈ ls, l.all p = true) →
      (joinNl ls).all p = true := by
  intro ls
  induction ls with
  | nil => intro _; simp [joinNl]
  | cons a rest ih =>
    intro h
    cases rest with
    | nil => simpa [joinNl] using h a (by simp)
    | cons b rest' =>
      have ha := h a (by simp)
      have hr := ih (fun l hl => h l (List.mem_cons_of_mem a hl))
      simp only [joinNl]
      simp [List.all_append, ha, hnl, hr]

/-- Characters of any line survive `joinNl`. -/
theorem mem_joinNl {c : Char} :
    ∀ {ls : List (List Char)} {l : List Char}, l ∈ ls → c ∈ l → c ∈ joinNl ls := by
  intro ls
  induction ls with
  | nil => intro l h _; cases h
  | cons a rest ih =>
    intro l hl hc
    cases rest with
    | nil =>
      simp only [List.mem_singleton] at hl
      subst hl
      simpa [joinNl] using hc
    | cons b rest' =>
      simp only [joinNl]
      rcases List.mem_cons.mp hl with rfl | hl'
      · exact List.mem_append_left _ hc
      · exact List.mem_append_right _ (List.mem_cons_of_mem _ (ih hl' hc))

/-- Whatever the margin turns out to be, it is made of spaces and tabs. -/
theorem computeMargin_all :
    ∀ (ls : List (List Char)) (acc : Option (List Char)),
      (∀ mg, acc = some mg → mg.all isIndentChar = true) →
      ∀ mg,
        ls.foldl (fun m l =>
          match lineIndent l with
          | Option.none => m
          | some ind => chooseMargin m ind) acc = some mg →
        mg.all isIndentChar = true := by
  intro ls
  induction ls with
  | nil => intro acc hacc mg h; exact hacc mg h
  | cons l rest ih =>
    intro acc hacc mg h
    rw [List.foldl_cons] at h
    refine ih _ ?_ mg h
    intro mg' hmg'
    cases hli : lineIndent l with
    | none => rw [hli] at hmg'; exact hacc mg' hmg'
    | some ind =>
      rw [hli] at hmg'
      have hind : ind.all isIndentChar = true := by
        unfold lineIndent at hli
        split at hli
        · cases hli
        · cases hli
          exact List.all_takeWhile
      cases acc with
      | none =>
        simp only [chooseMargin] at hmg'
        cases hmg'
        exact hind
      | some mg0 =>
        have hmg0 := hacc mg0 rfl
        simp only [chooseMargin] at hmg'
        split at hmg'
        · cases hmg'; exact hmg0
        · split at hmg'
          · cases hmg'
            exact hind
          · cases hmg'
            simp

/-- A boolean prefix test yields an append decomposition. -/
theorem isPrefixOf_decomp :
    ∀ (m l : List Char), m.isPrefixOf l = true → l = m ++ l.drop m.length := by
  intro m
  induction m with
  | nil => intro l _; simp
  | cons a m' ih =>
    intro l h
    cases l with
    | nil => simp [List.isPrefixOf] at h
    | cons b l' =>
      simp only [List.isPrefixOf, Bool.and_eq_true, beq_iff_eq] at h
      obtain ⟨rfl, h'⟩ := h
      simpa using ih l' h'

/-- Removing an all-indent margin keeps every non-indent character. -/
theorem mem_stripMargin {c : Char} {m l : List Char}
    (hm : m.all isIndentChar = true) (hc : c ∈ l)
    (hind : isIndentChar c = false) : c ∈ stripMargin m l := by
  unfold stripMargin
  split
  · next hpre =>
    have hd := isPrefixOf_decomp m l hpre
    rw [hd] at hc
    rcases List.mem_append.mp hc with hcm | hct
    · have := List.all_eq_true.mp hm c hcm
      rw [hind] at this
      cases this
    · exact hct
  · exact hc

/-- Removing a margin only removes characters. -/
theorem stripMargin_all {p : Char → Bool} {m l : List Char}
    (hl : l.all p = true) : (stripMargin m l).all p = true := by
  unfold stripMargin
  split
  · rw [List.all_eq_true] at hl ⊢
    intro c hc
    exact hl c (List.mem_of_mem_drop hc)
  · exact hl

/-- A character violating the predicate survives `dropWhile`. -/
theorem mem_dropWhile {p : Char → Bool} {c : Char} :
    ∀ {l : List Char}, c ∈ l → p c = false → c ∈ l.dropWhile p := by
  intro l
  induction l with
  | nil => intro h _; cases h
  | cons a rest ih =>
    intro hc hp
    by_cases ha : p a = true
    · rw [List.dropWhile_cons_of_pos ha]
      rcases List.mem_cons.mp hc with rfl | h
      · rw [hp] at ha; cases ha
      · exact ih h hp
    · rw [List.dropWhile_cons_of_neg ha]
      exact hc

/-- Stripping a fully-whitespace string leaves nothing. -/
theorem pyStrip_eq_nil {s : List Char} (hs : s.all pyIsSpace = true) :
    pyStrip s = [] := by
  unfold pyStrip
  have h1 : s.dropWhile pyIsSpace = [] :=
    List.dropWhile_eq_nil_iff.mpr (fun a ha => List.all_eq_true.mp hs a ha)
  rw [h1]
  rfl

/-- A non-whitespace character survives `strip`. -/
theorem mem_pyStrip {c : Char} {s : List Char} (hc : c ∈ s)
    (h : pyIsSpace c = false) : c ∈ pyStrip s := by
  unfold pyStrip
  have h1 := mem_dropWhile hc h
  have h2 : c ∈ (s.dropWhile pyIsSpace).reverse := List.mem_reverse.mpr h1
  have h3 := mem_dropWhile h2 h
  exact List.mem_reverse.mpr h3

/-- Dedenting a fully-whitespace string yields a fully-whitespace string. -/
theorem dedent_all {s : List Char} (hs : s.all pyIsSpace = true) :
    (dedent s).all pyIsSpace = true := by
  unfold dedent
  have hlines : ∀ l ∈ blankWsLines (splitNl s), l.all pyIsSpace = true := by
    intro l hl
    unfold blankWsLines at hl
    obtain ⟨l0, hl0, hfl⟩ := List.mem_map.mp hl
    subst hfl
    split
    · simp
    · exact splitNl_all hs l0 hl0
  apply joinNl_all (by decide)
  split
  · exact hlines
  · intro l hl
    obtain ⟨l0, hl0, hfl⟩ := List.mem_map.mp hl
    subst hfl
    exact stripMargin_all (hlines l0 hl0)

/-- A non-whitespace character survives `dedent`. -/
theorem mem_dedent {c : Char} {s : List Char} (hc : c ∈ s)
    (hns : pyIsSpace c = false) : c ∈ dedent s := by
  have hne : c ≠ '\n' := by
    intro e
    subst e
    simp [pyIsSpace] at hns
  have hind : isIndentChar c = false := by
    cases hi : isIndentChar c
    · rfl
    · rw [pyIsSpace_of_indent hi] at hns; cases hns
  obtain ⟨l, hl, hcl⟩ := mem_splitNl hc hne
  have hbl : (if !l.isEmpty && l.all isIndentChar then ([] : List Char) else l) = l := by
    split
    · next hcond =>
      rw [Bool.and_eq_true] at hcond
      have := List.all_eq_true.mp hcond.2 c hcl
      rw [hind] at this
      cases this
    · rfl
  have hlb : l ∈ blankWsLines (splitNl s) := by
    unfold blankWsLines
    exact List.mem_map.mpr ⟨l, hl, hbl⟩
  show c ∈ joinNl
    (if ((computeMargin (blankWsLines (splitNl s))).getD []).isEmpty = true
      then blankWsLines (splitNl s)
      else List.map (stripMargin ((computeMargin (blankWsLines (splitNl s))).getD []))
        (blankWsLines (splitNl s)))
  split
  · exact mem_joinNl hlb hcl
  · next hm =>
    have hmargin : ((computeMargin (blankWsLines (splitNl s))).getD []).all
        isIndentChar = true := by
      cases hcm : computeMargin (blankWsLines (splitNl s)) with
      | none => simp
      | some mg =>
        simpa using computeMargin_all _ Option.none (by simp) mg hcm
    refine mem_joinNl (List.mem_map_of_mem _ hlb) ?_
    exact mem_stripMargin hmargin hcl hind

/-- `pySplitlinesAux` always produces at least one line (length-bounded
recursion). -/
theorem pySplitlinesAux_ne_nil_bounded :
    ∀ (n : Nat) (s acc : List Char), s.length ≤ n → pySplitlinesAux s acc ≠ [] := by
  intro n
  induction n with
  | zero =>
    intro s acc hle
    have hs : s = [] := List.eq_nil_of_length_eq_zero (Nat.le_zero.mp hle)
    subst hs
    simp [pySplitlinesAux]
  | succ n ih =>
    intro s acc hle
    rw [pySplitlinesAux.eq_def]
    split
    · simp
    · simp
    · simp
    · simp
    · next c rest _ _ _ =>
      have hr : rest.length ≤ n := by
        simp only [List.length_cons] at hle
        omega
      exact ih rest (c :: acc) hr

/-- `pySplitlinesAux` always produces at least one line. -/
theorem pySplitlinesAux_ne_nil (s acc : List Char) : pySplitlinesAux s acc ≠ [] :=
  pySplitlinesAux_ne_nil_bounded s.length s acc (Nat.le_refl _)

/-- `splitlines` of a nonempty string is nonempty. -/
theorem pySplitlines_ne_nil {s : List Char} (h : s ≠ []) : pySplitlines s ≠ [] := by
  unfold pySplitlines
  rw [if_neg (by simpa using h)]
  exact pySplitlinesAux_ne_nil s []

/-- `fmt_desc` on an all-whitespace documentation string raises
`IndexError`. -/
theorem fmt_desc_error {s : List Char} (hs : s.all pyIsSpace = true) :
    fmt_desc s = .error .indexError := by
  have h1 : pyStrip (dedent s) = [] := pyStrip_eq_nil (dedent_all hs)
  unfold fmt_desc
  rw [h1]
  rfl

/-- `fmt_desc` succeeds when some character is not whitespace. -/
theorem fmt_desc_ok {s : List Char} (hs : s.all pyIsSpace = false) :
    ∃ d sh, fmt_desc s = .ok (d, sh) := by
  obtain ⟨c, hcs, hcp⟩ : ∃ c ∈ s, pyIsSpace c = false := by
    rcases List.all_eq_false.mp hs with ⟨c, hcs, hcp⟩
    exact ⟨c, hcs, by simpa using hcp⟩
  have h1 : c ∈ pyStrip (dedent s) := mem_pyStrip (mem_dedent hcs hcp) hcp
  have h2 : pyStrip (dedent s) ≠ [] := List.ne_nil_of_mem h1
  have he : fmt_desc s = match pySplitlines (pyStrip (dedent s)) with
      | [] => .error .indexError
      | line0 :: _ => .ok (pyStrip (dedent s), line0) := rfl
  cases hsp : pySplitlines (pyStrip (dedent s)) with
  | nil => exact absurd hsp (pySplitlines_ne_nil h2)
  | cons l0 ls0 =>
    rw [hsp] at he
    exact ⟨pyStrip (dedent s), l0, he⟩


/-- C10. Registration fails — with the `IndexError` that
`desc.splitlines()[0]` raises on an empty string — exactly when the
declared documentation is empty or consists only of whitespace; with at
least one non-whitespace character the normalization succeeds and the
descriptor is appended to the registry. -/
theorem c10_blank_doc (ks : List SettingClass) (r : RawSetting) :
    (r.desc.toList.all pyIsSpace = true → register ks r = .error .indexError)
  ∧ (r.desc.toList.all pyIsSpace = false →
      ∃ d sh, register ks r = .ok (ks ++ [mkRegistered r d sh ks.length])) := by
  constructor
  · intro h
    exact register_error (fmt_desc_error h)
  · intro h
    obtain ⟨d, sh, hf⟩ := fmt_desc_ok h
    exact ⟨d, sh, register_ok ks r d sh hf⟩

/-- Witness for C10: a whitespace-only documentation string fails
registration with `IndexError`; a one-word documentation string
succeeds. -/
theorem c10_blank_doc_witness :
    register [] (rawDoc "blank" "  ") = .error .indexError
  ∧ ∃ d sh, register [] (rawDoc "ok" "doc")
      = .ok ([] ++ [mkRegistered (rawDoc "ok" "doc") d sh 0]) :=
  ⟨(c10_blank_doc [] (rawDoc "blank" "  ")).1 (by decide),
   (c10_blank_doc [] (rawDoc "ok" "doc")).2 (by decide)⟩


/-! ## C9 support: ordering facts -/

theorem pairLe_refl (a : String × Nat) : pairLe a a := Or.inr ⟨rfl, Nat.le_refl _⟩

theorem pairLe_trans {a b c : String × Nat} (h1 : pairLe a b) (h2 : pairLe b c) :
    pairLe a c := by
  rcases h1 with h1 | ⟨h1e, h1n⟩
  · rcases h2 with h2 | ⟨h2e, _⟩
    · exact Or.inl (lt_trans h1 h2)
    · exact Or.inl (h2e ▸ h1)
  · rcases h2 with h2 | ⟨h2e, h2n⟩
    · exact Or.inl (h1e ▸ h2)
    · exact Or.inr ⟨h1e.trans h2e, Nat.le_trans h1n h2n⟩

theorem pairLe_total (a b : String × Nat) : pairLe a b ∨ pairLe b a := by
  rcases lt_trichotomy a.1 b.1 with h | h | h
  · exact Or.inl (Or.inl h)
  · rcases Nat.le_total a.2 b.2 with hn | hn
    · exact Or.inl (Or.inr ⟨h, hn⟩)
    · exact Or.inr (Or.inr ⟨h.symm, hn⟩)
  · exact Or.inr (Or.inl h)

theorem pairLe_antisymm {a b : String × Nat} (h1 : pairLe a b) (h2 : pairLe b a) :
    a = b := by
  rcases h1 with h1 | ⟨h1e, h1n⟩
  · rcases h2 with h2 | ⟨h2e, _⟩
    · exact absurd (lt_trans h1 h2) (lt_irrefl _)
    · exact absurd (h2e ▸ h1) (lt_irrefl _)
  · rcases h2 with h2 | ⟨h2e, h2n⟩
    · exact absurd (h1e ▸ h2) (lt_irrefl _)
    · exact Prod.ext h1e (Nat.le_antisymm h1n h2n)

theorem pairLeB_iff {a b : String × Nat} : pairLeB a b = true ↔ pairLe a b :=
  decide_eq_true_iff

/-! ## C9 support: association-list lookups under permutation -/

theorem assocLookup_eq_none_iff {k : String} {l : List (String × α)} :
    assocLookup k l = Option.none ↔ k ∉ l.map Prod.fst := by
  induction l with
  | nil => simp [assocLookup]
  | cons p rest ih =>
    obtain ⟨k', v'⟩ := p
    by_cases h : k' = k
    · subst h
      simp [assocLookup]
    · simp [assocLookup, h, ih, Ne.symm h]

theorem mem_of_assocLookup_eq_some {k : String} {v : α} {l : List (String × α)}
    (h : assocLookup k l = some v) : (k, v) ∈ l := by
  induction l with
  | nil => cases h
  | cons p rest ih =>
    obtain ⟨k', v'⟩ := p
    by_cases hk : k' = k
    · subst hk
      simp only [assocLookup, if_pos rfl] at h
      cases h
      exact List.mem_cons_self _ _
    · simp only [assocLookup, if_neg hk] at h
      exact List.mem_cons_of_mem _ (ih h)

theorem assocLookup_eq_some_of_mem_nodup {k : String} {v : α} {l : List (String × α)}
    (hn : (l.map Prod.fst).Nodup) (h : (k, v) ∈ l) : assocLookup k l = some v := by
  induction l with
  | nil => cases h
  | cons p rest ih =>
    obtain ⟨k', v'⟩ := p
    rw [List.map_cons, List.nodup_cons] at hn
    rcases List.mem_cons.mp h with he | hm
    · cases he
      simp [assocLookup]
    · have hk : k' ≠ k := by
        intro e
        subst e
        exact hn.1 (List.mem_map.mpr ⟨(k', v), hm, rfl⟩)
      simp [assocLookup, hk, ih hn.2 hm]

theorem assocLookup_perm {l₁ l₂ : List (String × α)} (hp : l₁.Perm l₂)
    (hn : (l₁.map Prod.fst).Nodup) (k : String) :
    assocLookup k l₁ = assocLookup k l₂ := by
  have hn₂ : (l₂.map Prod.fst).Nodup := ((hp.map Prod.fst).nodup_iff).mp hn
  cases h1 : assocLookup k l₁ with
  | none =>
    rw [assocLookup_eq_none_iff] at h1
    have h2 : k ∉ l₂.map Prod.fst := fun hc => h1 ((hp.map Prod.fst).mem_iff.mpr hc)
    exact ((assocLookup_eq_none_iff).mpr h2).symm
  | some v =>
    have hm := hp.mem_iff.mp (mem_of_assocLookup_eq_some h1)
    exact (assocLookup_eq_some_of_mem_nodup hn₂ hm).symm

/-! ## C9 support: uniqueness of the sorted arrangement -/

theorem perm_pairwise_strict_eq {R : α → α → Prop}
    (hanti : ∀ a b, R a b → R b a → False) {l₁ l₂ : List α}
    (hp : l₁.Perm l₂) (h₁ : l₁.Pairwise R) (h₂ : l₂.Pairwise R) : l₁ = l₂ := by
  haveI : IsAntisymm α R := ⟨fun a b hab hba => (hanti a b hab hba).elim⟩
  exact List.eq_of_perm_of_sorted hp h₁ h₂

/-! ## C9 support: flatMap calculations -/

theorem flatMap_map (l : List α) (f : α → β) (g : β → List γ) :
    (l.map f).flatMap g = l.flatMap (fun a => g (f a)) := by
  induction l with
  | nil => rfl
  | cons a rest ih => simp only [List.map_cons, List.flatMap_cons, ih]

theorem flatMap_congr {l : List α} {f g : α → List β}
    (h : ∀ a ∈ l, f a = g a) : l.flatMap f = l.flatMap g := by
  induction l with
  | nil => rfl
  | cons a rest ih =>
    simp only [List.flatMap_cons]
    rw [h a (List.mem_cons_self a rest), ih (fun x hx => h x (List.mem_cons_of_mem a hx))]

theorem flatMap_if_singleton (l : List α) (c : α → Bool) (g : α → β) :
    l.flatMap (fun a => if c a = true then [g a] else [])
      = (l.filter c).map g := by
  induction l with
  | nil => rfl
  | cons a rest ih =>
    by_cases h : c a = true
    · simp [List.flatMap_cons, List.filter_cons, h, ih]
    · simp [List.flatMap_cons, List.filter_cons, h, ih]

/-! ## C9 support: the emitted option spec -/

theorem add_option_eq (s : SettingClass) :
    add_option s = if s.cli.isEmpty then [] else [mkOption s] := rfl

theorem mkOption_dest (s : SettingClass) : (mkOption s).dest = s.name := rfl

theorem mkOption_help (s : SettingClass) :
    (mkOption s).help = s.short ++ " [".toList ++ pyStr s.default ++ "]".toList := rfl

theorem mkOption_type (s : SettingClass) (h : (mkOption s).action ≠ "store") :
    (mkOption s).type = Option.none := by
  have e : (mkOption s).type = if (mkOption s).action ≠ "store" then Option.none
      else some (match s.type with
        | some t => if t.isEmpty then "string" else t
        | Option.none => "string") := rfl
  rw [e, if_pos h]

/-! ## C9 support: sort keys -/

theorem sorterKey_of_mem {st : List (String × Holder)}
    (hn : (st.map Prod.fst).Nodup) {p : String × Holder} (hp : p ∈ st) :
    sorterKey st p.1 = holderKey p.2 := by
  unfold sorterKey
  rw [assocLookup_eq_some_of_mem_nodup hn (show (p.1, p.2) ∈ st by cases p; exact hp)]
  rfl

theorem entLeB_trans (a b c : String × Holder) (h1 : entLeB a b) (h2 : entLeB b c) :
    entLeB a c :=
  pairLeB_iff.mpr (pairLe_trans (pairLeB_iff.mp h1) (pairLeB_iff.mp h2))

theorem entLeB_total (a b : String × Holder) : entLeB a b || entLeB b a := by
  rcases pairLe_total (holderKey a.2) (holderKey b.2) with h | h
  · have := pairLeB_iff.mpr h
    simp only [entLeB, this, Bool.true_or]
  · have := pairLeB_iff.mpr h
    simp only [entLeB, this, Bool.or_true]

/-! ## C9 support: uniqueness of the sorted arrangement -/

/-- Distinct orders make the entry keys distinct. -/
theorem holderKeys_nodup {st : List (String × Holder)}
    (ho : (st.map fun p => p.2.cls.order).Nodup) :
    (st.map fun p => holderKey p.2).Nodup := by
  apply List.Nodup.of_map Prod.snd
  have e : (st.map fun p => holderKey p.2).map Prod.snd
      = st.map fun p => p.2.cls.order := by
    rw [List.map_map]
    exact List.map_congr_left fun p _ => rfl
  rw [e]
  exact ho

/-- Sortedness plus distinct keys gives the strict pairwise ordering. -/
theorem pairwise_strict_entries {l : List (String × Holder)}
    (hs : l.Pairwise fun p q => entLeB p q = true)
    (hkn : (l.map fun p => holderKey p.2).Nodup) :
    l.Pairwise fun p q =>
      pairLe (holderKey p.2) (holderKey q.2) ∧ holderKey p.2 ≠ holderKey q.2 :=
  (hs.imp fun h => pairLeB_iff.mp h).and (List.pairwise_map.mp hkn)

/-- The strict entry ordering is asymmetric. -/
theorem strict_asymm_entries (p q : String × Holder)
    (h1 : pairLe (holderKey p.2) (holderKey q.2) ∧ holderKey p.2 ≠ holderKey q.2)
    (h2 : pairLe (holderKey q.2) (holderKey p.2) ∧ holderKey q.2 ≠ holderKey p.2) :
    False :=
  h1.2 (pairLe_antisymm h1.1 h2.1)

/-- Two permuted settings dicts (with distinct orders) sort to the same
arrangement. -/
theorem mergeSort_entries_unique {st₁ st₂ : List (String × Holder)}
    (hp : st₁.Perm st₂)
    (ho : (st₁.map fun p => p.2.cls.order).Nodup) :
    st₁.mergeSort entLeB = st₂.mergeSort entLeB := by
  have hkeyn := holderKeys_nodup ho
  have hn₂ : (st₂.map fun p => holderKey p.2).Nodup :=
    ((hp.map _).nodup_iff).mp hkeyn
  have h₁ := pairwise_strict_entries
    (List.sorted_mergeSort entLeB_trans entLeB_total st₁)
    (((List.mergeSort_perm st₁ entLeB).map _).nodup_iff.mpr hkeyn)
  have h₂ := pairwise_strict_entries
    (List.sorted_mergeSort entLeB_trans entLeB_total st₂)
    (((List.mergeSort_perm st₂ entLeB).map _).nodup_iff.mpr hn₂)
  exact perm_pairwise_strict_eq strict_asymm_entries
    ((List.mergeSort_perm st₁ entLeB).trans
      (hp.trans (List.mergeSort_perm st₂ entLeB).symm))
    h₁ h₂

/-! ## C9 support: the parser output in normal form -/

/-- What `Config.parser()` emits: the settings sorted by
`(section, order)`, filtered to those with CLI flags, each mapped to its
option spec. -/
theorem parserOptions_normal (cfg : Config)
    (hn : (cfg.settings.map Prod.fst).Nodup)
    (ho : (cfg.settings.map fun p => p.2.cls.order).Nodup) :
    parserOptions cfg
      = ((cfg.settings.mergeSort entLeB).filter
          fun p => !p.2.cls.cli.isEmpty).map fun p => mkOption p.2.cls := by
  have hleK_trans : ∀ a b c : String,
      pairLeB (sorterKey cfg.settings a) (sorterKey cfg.settings b) →
      pairLeB (sorterKey cfg.settings b) (sorterKey cfg.settings c) →
      pairLeB (sorterKey cfg.settings a) (sorterKey cfg.settings c) :=
    fun _ _ _ h1 h2 =>
      pairLeB_iff.mpr (pairLe_trans (pairLeB_iff.mp h1) (pairLeB_iff.mp h2))
  have hleK_total : ∀ a b : String,
      pairLeB (sorterKey cfg.settings a) (sorterKey cfg.settings b)
      || pairLeB (sorterKey cfg.settings b) (sorterKey cfg.settings a) := by
    intro a b
    rcases pairLe_total (sorterKey cfg.settings a) (sorterKey cfg.settings b) with h | h
    · have e := pairLeB_iff.mpr h
      rw [e, Bool.true_or]
    · have e := pairLeB_iff.mpr h
      rw [e, Bool.or_true]
  have hperm_ent := List.mergeSort_perm cfg.settings entLeB
  -- the two sorted key lists coincide
  have hmapkeys : (cfg.settings.map Prod.fst).map (sorterKey cfg.settings)
      = cfg.settings.map fun p => holderKey p.2 := by
    rw [List.map_map]
    exact List.map_congr_left fun p hp => sorterKey_of_mem hn hp
  have hsortn : ((cfg.settings.map Prod.fst).map (sorterKey cfg.settings)).Nodup := by
    rw [hmapkeys]
    exact holderKeys_nodup ho
  have hA := List.sorted_mergeSort hleK_trans hleK_total (cfg.settings.map Prod.fst)
  have hB : ((cfg.settings.mergeSort entLeB).map Prod.fst).Pairwise
      (fun k₁ k₂ => pairLeB (sorterKey cfg.settings k₁) (sorterKey cfg.settings k₂)
        = true) := by
    rw [List.pairwise_map]
    refine List.Pairwise.imp_of_mem ?_
      (List.sorted_mergeSort entLeB_trans entLeB_total cfg.settings)
    intro p q hp hq hle
    have hp' : p ∈ cfg.settings := hperm_ent.mem_iff.mp hp
    have hq' : q ∈ cfg.settings := hperm_ent.mem_iff.mp hq
    show pairLeB (sorterKey cfg.settings p.1) (sorterKey cfg.settings q.1) = true
    rw [sorterKey_of_mem hn hp', sorterKey_of_mem hn hq']
    exact hle
  have hA_strict : ((cfg.settings.map Prod.fst).mergeSort
      (fun a b => pairLeB (sorterKey cfg.settings a) (sorterKey cfg.settings b))).Pairwise
      (fun k₁ k₂ => pairLe (sorterKey cfg.settings k₁) (sorterKey cfg.settings k₂)
        ∧ sorterKey cfg.settings k₁ ≠ sorterKey cfg.settings k₂) := by
    refine ((hA.imp fun h => pairLeB_iff.mp h).and (List.pairwise_map.mp ?_))
    exact ((List.mergeSort_perm _ _).map _).nodup_iff.mpr hsortn
  have hB_strict : ((cfg.settings.mergeSort entLeB).map Prod.fst).Pairwise
      (fun k₁ k₂ => pairLe (sorterKey cfg.settings k₁) (sorterKey cfg.settings k₂)
        ∧ sorterKey cfg.settings k₁ ≠ sorterKey cfg.settings k₂) := by
    refine ((hB.imp fun h => pairLeB_iff.mp h).and (List.pairwise_map.mp ?_))
    exact ((hperm_ent.map Prod.fst).map _).nodup_iff.mpr hsortn
  have hAB : (cfg.settings.map Prod.fst).mergeSort
        (fun a b => pairLeB (sorterKey cfg.settings a) (sorterKey cfg.settings b))
      = (cfg.settings.mergeSort entLeB).map Prod.fst := by
    refine perm_pairwise_strict_eq
      (fun a b h1 h2 => h1.2 (pairLe_antisymm h1.1 h2.1)) ?_ hA_strict hB_strict
    exact (List.mergeSort_perm _ _).trans (hperm_ent.map Prod.fst).symm
  show ((cfg.settings.map Prod.fst).mergeSort
      (fun a b => pairLeB (sorterKey cfg.settings a) (sorterKey cfg.settings b))).flatMap
      (fun k => match assocLookup k cfg.settings with
        | some h => add_option h.cls
        | Option.none => [])
    = _
  rw [hAB, flatMap_map]
  rw [flatMap_congr (l := cfg.settings.mergeSort entLeB)
    (g := fun p => if (!p.2.cls.cli.isEmpty) = true
      then [mkOption p.2.cls] else [])
    (fun p hp => by
      have hp' : p ∈ cfg.settings := hperm_ent.mem_iff.mp hp
      have hl : assocLookup p.1 cfg.settings = some p.2 :=
        assocLookup_eq_some_of_mem_nodup hn (by cases p; exact hp')
      show (match assocLookup p.1 cfg.settings with
        | some h => add_option h.cls
        | Option.none => []) = _
      rw [hl]
      show add_option p.2.cls = _
      rw [add_option_eq]
      cases h : p.2.cls.cli.isEmpty <;> simp [h])]
  exact flatMap_if_singleton _ _ _

/-- C9. `Config.parser()` emits exactly the descriptors that declare at
least one CLI flag, arranged by the key `(section, order)` — section
lexicographic, ties broken by registration order; the emitted list is the
same for every iteration order over the settings dict; and each emitted
spec has `dest` equal to the setting name, help text
`"{short} [{default}]"`, and no value type when its action is not
"store". -/
theorem c9_cliOptions (cfg : Config)
    (hn : (cfg.settings.map Prod.fst).Nodup)
    (ho : (cfg.settings.map fun p => p.2.cls.order).Nodup) :
    parserOptions cfg
        = ((cfg.settings.mergeSort entLeB).filter
            fun p => !p.2.cls.cli.isEmpty).map (fun p => mkOption p.2.cls)
  ∧ (cfg.settings.mergeSort entLeB).Pairwise entLeP
  ∧ (∀ cfg' : Config, cfg'.settings.Perm cfg.settings →
      parserOptions cfg' = parserOptions cfg)
  ∧ ∀ spec ∈ parserOptions cfg, ∃ p ∈ cfg.settings,
        p.2.cls.cli.isEmpty = false
      ∧ spec = mkOption p.2.cls
      ∧ spec.dest = p.2.cls.name
      ∧ spec.help = p.2.cls.short ++ " [".toList ++ pyStr p.2.cls.default
          ++ "]".toList
      ∧ (spec.action ≠ "store" → spec.type = Option.none) := by
  have hnf := parserOptions_normal cfg hn ho
  refine ⟨hnf, ?_, ?_, ?_⟩
  · exact (List.sorted_mergeSort entLeB_trans entLeB_total cfg.settings).imp
      (fun h => pairLeB_iff.mp h)
  · intro cfg' hperm
    have hn' : (cfg'.settings.map Prod.fst).Nodup :=
      ((hperm.map Prod.fst).nodup_iff).mpr hn
    have ho' : (cfg'.settings.map fun p => p.2.cls.order).Nodup :=
      ((hperm.map _).nodup_iff).mpr ho
    have hnf' := parserOptions_normal cfg' hn' ho'
    rw [hnf', hnf, mergeSort_entries_unique hperm ho']
  · intro spec hs
    rw [hnf] at hs
    obtain ⟨p, hpf, rfl⟩ := List.mem_map.mp hs
    have hpm := List.mem_filter.mp hpf
    have hp' : p ∈ cfg.settings := (List.mergeSort_perm _ _).mem_iff.mp hpm.1
    refine ⟨p, hp', ?_, rfl, mkOption_dest _, mkOption_help _, mkOption_type _⟩
    simpa using hpm.2

/-- Witness for C9: the three-setting configuration object, and its
reordered copy producing the identical option list. -/
theorem c9_cliOptions_witness :
    parserOptions cfg9
        = ((cfg9.settings.mergeSort entLeB).filter
            fun p => !p.2.cls.cli.isEmpty).map (fun p => mkOption p.2.cls)
  ∧ parserOptions cfg9p = parserOptions cfg9 :=
  ⟨(c9_cliOptions cfg9 (by decide) (by decide)).1,
   (c9_cliOptions cfg9 (by decide) (by decide)).2.2.1 cfg9p (by decide)⟩

end Gunicorn
